import Mathlib

/-!
Shallow embedding of the ixflix-backend compensation engine.

Money amounts are modelled as rationals (`ℚ`), matching the exact
arithmetic of the JavaScript source on the decimal literals it uses.
Database tables are modelled as lists of typed rows inside one `DB`
state record; each JavaScript model method becomes a Lean function that
takes and returns the `DB` state explicitly.

Sources embedded here:
- `src/unnamed/part_004`  (Stake model: pack config, daily accrual, crediting, daily batch)
- `src/unnamed/part_005`  (Transaction / JobRun / Synergy models)
- `src/unnamed/part_006`  (Genealogy model: upline walk)
- `src/src/models/PowerPassUp.js` (power pass-up distribution)
- `src/src/controllers/walletController.js` (RewardCap: getCapInfo / clampIncentive)
- `src/scripts/setup-database.sql` (walletController part: distributeCatalystBonus)
-/

namespace IxFlix

/-- Energy pack tiers, from `ENERGY_PACKS` in the Stake model. -/
inductive PackType | spark | pulse | charge | quantum
deriving DecidableEq, Repr

/-- Stake lifecycle status. -/
inductive StakeStatus | active | completed | cancelled
deriving DecidableEq, Repr

/-- Status of a daily stake-reward row. -/
inductive RewardStatus | pending | credited | expired
deriving DecidableEq, Repr

/-- Transaction types that appear in the embedded code paths. -/
inductive TxnType | deposit | withdraw | transfer | stakeDebit | stakeReward | catalystBonus | synergyFlow | powerPassup
deriving DecidableEq, Repr

/-- Transaction status. -/
inductive TxnStatus | pending | completed | failed
deriving DecidableEq, Repr

/-- Binary-tree slot. -/
inductive Side | left | right
deriving DecidableEq, Repr

/-- Job-run status from the `job_runs` table. -/
inductive JobStatus | running | success | failed
deriving DecidableEq, Repr

/-- Daily batch job names used by the embedded code. -/
inductive JobName | coreHarvest | synergyFlowJob
deriving DecidableEq, Repr

/-- Row of the `users` table (the fields the embedded code reads). -/
structure UserRow where
  id : Nat
  isActive : Bool
  isVerified : Bool
deriving DecidableEq, Repr

/-- Row of the `genealogy` table. -/
structure GenealogyRow where
  user_id : Nat
  parent_id : Option Nat
  sponsor_id : Option Nat
  position : Option Side
deriving DecidableEq, Repr

/-- Row of the `stakes` table. -/
structure StakeRow where
  id : Nat
  user_id : Nat
  pack_type : PackType
  shares : Nat
  amount : ℚ
  daily_roi_rate : ℚ
  max_reward_limit : ℚ
  total_rewards_earned : ℚ
  status : StakeStatus
deriving DecidableEq, Repr

/-- Row of the `stake_rewards` table; `reward_date` is a day number. -/
structure RewardRow where
  id : Nat
  stake_id : Nat
  reward_date : Int
  core_reward : ℚ
  harvest_reward : ℚ
  total_reward : ℚ
  status : RewardStatus
deriving DecidableEq, Repr

/-- Row of the `transactions` table; `created_date` is the DATE(created_at) day number. -/
structure TxnRow where
  user_id : Nat
  txn_type : TxnType
  amount : ℚ
  status : TxnStatus
  created_date : Int
deriving DecidableEq, Repr

/-- Row of the `wallets` table (main wallet only). -/
structure WalletRow where
  user_id : Nat
  balance : ℚ
deriving DecidableEq, Repr

/-- Row of the `team_volumes` table. -/
structure VolumeRow where
  user_id : Nat
  left_volume : ℚ
  right_volume : ℚ
  left_carry : ℚ
  right_carry : ℚ
  daily_paid : ℚ
  last_reset_date : Option Int
deriving DecidableEq, Repr

/-- Row of the `user_ranks` table. -/
structure RankRow where
  user_id : Nat
  override_percent : ℚ
deriving DecidableEq, Repr

/-- Row of the `job_runs` table. -/
structure JobRow where
  job_name : JobName
  run_date : Int
  status : JobStatus
deriving DecidableEq, Repr

/-- Row of the `team_cycles` table (the fields the embedded code writes). -/
structure CycleRow where
  user_id : Nat
  cycle_date : Int
  cycles : Int
  reward_amount : ℚ
  rate_used : ℚ
deriving DecidableEq, Repr

/-- Which sales measure feeds the harvest pool (`HARVEST_SALES_SOURCE`). -/
inductive HarvestSource | stakesSrc | depositsSrc | combinedSrc
deriving DecidableEq, Repr

/-- The relational store, one list per table, plus the harvest-source config. -/
structure DB where
  users : List UserRow
  genealogy : List GenealogyRow
  stakes : List StakeRow
  rewards : List RewardRow
  transactions : List TxnRow
  wallets : List WalletRow
  volumes : List VolumeRow
  ranks : List RankRow
  jobs : List JobRow
  teamCycles : List CycleRow
  harvestSource : HarvestSource
deriving DecidableEq, Repr

/-- Priority used by `getUserActivePackInfo`: quantum > charge > pulse > spark. -/
def packPriority : PackType → Nat
  | .quantum => 4
  | .charge => 3
  | .pulse => 2
  | .spark => 1

/-- `maxRewardLimit` percentages from `ENERGY_PACKS` (Stake model). -/
def packMaxLimit : PackType → ℚ
  | .spark => 200
  | .pulse => 300
  | .charge => 400
  | .quantum => 500

/-- `dailyRoiRate` from `ENERGY_PACKS` (Stake model). -/
def packDailyRate : PackType → ℚ
  | .spark => 3/1000
  | .pulse => 5/1000
  | .charge => 7/1000
  | .quantum => 1/100

/-- Synergy Flow rates by pack (`SYNERGY_RATES` in the Synergy model). -/
def synergyRate : PackType → ℚ
  | .spark => 5/100
  | .pulse => 6/100
  | .charge => 8/100
  | .quantum => 10/100

/-- Cycle size (`CYCLE_SIZE`): 100 USD left + 100 USD right = 1 cycle. -/
def CYCLE_SIZE : ℚ := 100

/-- Find a stake row by id (`Stake.findById`). -/
def findStake (db : DB) (id : Nat) : Option StakeRow :=
  db.stakes.find? (fun s => decide (s.id = id))

/-- Active stakes of a user, in table order. -/
def activeStakesOf (db : DB) (uid : Nat) : List StakeRow :=
  db.stakes.filter (fun s => decide (s.user_id = uid ∧ s.status = StakeStatus.active))

/-- Fold step of `Stake.getUserActivePackInfo`: accumulate the highest-priority
pack and the total active amount, exactly as the JS `forEach` does. -/
def packInfoStep (acc : Option PackType × ℚ) (s : StakeRow) : Option PackType × ℚ :=
  let hp := match acc.1 with
    | none => some s.pack_type
    | some p => if packPriority s.pack_type > packPriority p then some s.pack_type else some p
  (hp, acc.2 + s.amount)

/-- `Stake.getUserActivePackInfo`: highest-priority active pack and total active amount. -/
def getUserActivePackInfo (db : DB) (uid : Nat) : Option PackType × ℚ :=
  let stakes := activeStakesOf db uid
  if stakes.isEmpty then (none, 0)
  else stakes.foldl packInfoStep (none, 0)

/-- Transaction types counted against the shared incentive cap
(`INCENTIVE_TYPES` in the RewardCap module). -/
def isIncentiveType : TxnType → Bool
  | .catalystBonus => true
  | .synergyFlow => true
  | .powerPassup => true
  | _ => false

/-- Result shape of `RewardCap.getCapInfo`. -/
structure CapInfo where
  capAmount : ℚ
  maxPercent : ℚ
  available : ℚ
  used : ℚ
deriving DecidableEq, Repr

/-- Sum of completed incentive-type transaction amounts for a user
(the `used` query inside `getCapInfo`). -/
def incentiveUsedSum (db : DB) (uid : Nat) : ℚ :=
  ((db.transactions.filter
      (fun t => decide (t.user_id = uid ∧ t.status = TxnStatus.completed) && isIncentiveType t.txn_type)).map
    (fun t => t.amount)).sum

/-- `RewardCap.getCapInfo`: lifetime incentive ceiling and its consumption. -/
def getCapInfo (db : DB) (uid : Nat) : CapInfo :=
  let info := getUserActivePackInfo db uid
  match info.1 with
  | none => ⟨0, 0, 0, 0⟩
  | some p =>
    if info.2 ≤ 0 then ⟨0, 0, 0, 0⟩
    else
      let maxPercent := packMaxLimit p
      let capAmount := info.2 * (maxPercent / 100)
      let used := incentiveUsedSum db uid
      let available := max 0 (capAmount - used)
      ⟨capAmount, maxPercent, available, used⟩

/-- `RewardCap.clampIncentive`: clamp a proposed incentive to remaining headroom. -/
def clampIncentive (db : DB) (uid : Nat) (amount : ℚ) : ℚ × CapInfo :=
  let info := getCapInfo db uid
  if info.available ≤ 0 then (0, info)
  else (max 0 (min amount info.available), info)

/-- Spec-shaped sum of the user's active stake amounts (for comparison with
the fold inside `getUserActivePackInfo`). -/
def activeStakeAmountSum (db : DB) (uid : Nat) : ℚ :=
  ((activeStakesOf db uid).map (fun s => s.amount)).sum

/-- The pack `p` is the pack of some active stake of `uid` and no active
stake has a strictly higher-priority pack. -/
def IsHighestActivePack (db : DB) (uid : Nat) (p : PackType) : Prop :=
  (∃ s ∈ activeStakesOf db uid, s.pack_type = p) ∧
    ∀ s ∈ activeStakesOf db uid, packPriority s.pack_type ≤ packPriority p

/-- Increment the user's main wallet balance (knex `increment('balance', amt)`). -/
def creditWallet (db : DB) (uid : Nat) (amt : ℚ) : DB :=
  { db with wallets :=
      db.wallets.map (fun w => if w.user_id = uid then { w with balance := w.balance + amt } else w) }

/-- Append a transaction row (knex `insert` into `transactions`). -/
def insertTxn (db : DB) (t : TxnRow) : DB :=
  { db with transactions := db.transactions ++ [t] }

/-- `getUserRankPercent`: stored override percent from `user_ranks`, defaulting to 0. -/
def getUserRankPercent (db : DB) (uid : Nat) : ℚ :=
  match db.ranks.find? (fun r => decide (r.user_id = uid)) with
  | some r => r.override_percent
  | none => 0

/-- Recursion core of `getSponsorChain`: follow `sponsor_id` pointers with a
visited set, up to the remaining `fuel` levels. -/
def getSponsorChainAux (db : DB) : Nat → Nat → List Nat → List Nat
  | 0, _, _ => []
  | fuel + 1, cur, visited =>
    match db.genealogy.find? (fun g => decide (g.user_id = cur)) with
    | none => []
    | some row =>
      match row.sponsor_id with
      | none => []
      | some sid =>
        if sid ∈ visited then []
        else sid :: getSponsorChainAux db fuel sid (sid :: visited)

/-- `getSponsorChain` (PowerPassUp model): upline sponsor chain, max 9 levels. -/
def getSponsorChain (db : DB) (uid : Nat) : List Nat :=
  getSponsorChainAux db 9 uid []

/-- One credited allocation of a power pass-up distribution. -/
structure PassAlloc where
  sponsorId : Nat
  percent : ℚ
  amount : ℚ
deriving DecidableEq, Repr

/-- Result of `distributePowerPassUp`, with the final `previousRankPercent`
baseline made explicit. -/
structure PassResult where
  db : DB
  distributed : ℚ
  allocations : List PassAlloc
  finalBaseline : ℚ
deriving DecidableEq, Repr

/-- Loop body of `distributePowerPassUp` over the sponsor chain, threading the
store (wallet credits and transaction inserts) and the `previousRankPercent`
baseline. -/
def passLoop (coreAmount : ℚ) (refDate : Int) :
    List Nat → DB → ℚ → List PassAlloc → DB × ℚ × List PassAlloc
  | [], db, prev, acc => (db, prev, acc)
  | sid :: rest, db, prev, acc =>
    let spct := getUserRankPercent db sid
    if spct ≤ prev then
      -- skip unranked or lower/equal rank sponsors: baseline unchanged
      passLoop coreAmount refDate rest db prev acc
    else
      let overridePercent := spct - prev
      let earned := (overridePercent / 100) * coreAmount
      if earned ≤ 0 then
        passLoop coreAmount refDate rest db spct acc
      else
        let allowed := (clampIncentive db sid earned).1
        if allowed > 0 then
          let db1 := creditWallet db sid allowed
          let db2 := insertTxn db1 ⟨sid, .powerPassup, allowed, .completed, refDate⟩
          passLoop coreAmount refDate rest db2 spct (acc ++ [⟨sid, overridePercent, allowed⟩])
        else
          passLoop coreAmount refDate rest db spct acc

/-- `distributePowerPassUp` (PowerPassUp model): walk the sponsor chain and pay
each rank-increasing upline the marginal override on `coreAmount`. -/
def distributePowerPassUp (db : DB) (originUserId : Nat) (coreAmount : ℚ) (refDate : Int) :
    PassResult :=
  if coreAmount ≤ 0 then ⟨db, 0, [], 0⟩
  else
    let chain := getSponsorChain db originUserId
    let r := passLoop coreAmount refDate chain db 0 []
    ⟨r.1, ((r.2.2.map (fun a => a.amount)).sum), r.2.2, r.2.1⟩

/-- Baseline evolution written independently of payments: fold the stored
rank percents over a chain, advancing only on strict increases. -/
def chainBaseline (db : DB) (chain : List Nat) (start : ℚ) : ℚ :=
  chain.foldl
    (fun p s => if getUserRankPercent db s ≤ p then p else getUserRankPercent db s) start

/-- Catalyst Bonus per-level rates (`CATALYST_LEVEL_RATES`), levels 1 to 9. -/
def catalystRates : List ℚ :=
  [9/100, 3/100, 1/100, 5/1000, 5/1000, 25/10000, 25/10000, 25/10000, 25/10000]

/-- Catalyst rate for a 0-based level index. -/
def catalystRateAt (level : Nat) : ℚ := catalystRates.getD level 0

/-- The indexed rate table the catalyst loop walks over. -/
def indexedCatalystRates : List (Nat × ℚ) :=
  (List.range catalystRates.length).zip catalystRates

/-- One recorded catalyst payment: `raw` is the unclamped amount computed from
the origin stake amount, `allowed` the cap-clamped amount actually credited. -/
structure CatPayment where
  level : Nat
  sponsorId : Nat
  raw : ℚ
  allowed : ℚ
deriving DecidableEq, Repr

/-- Loop body of `distributeCatalystBonus`: at each remaining (level, rate),
step to the current user's sponsor, stopping on a missing or null sponsor, a
visited sponsor, or a self-pointer; skip sponsors without an active pack;
otherwise clamp `amount * rate` and (if positive) credit and record it. -/
def catalystLoop (amount : ℚ) (refDate : Int) :
    List (Nat × ℚ) → Nat → List Nat → DB → List CatPayment → DB × List CatPayment
  | [], _, _, db, acc => (db, acc)
  | (level, rate) :: rest, cur, visited, db, acc =>
    match db.genealogy.find? (fun g => decide (g.user_id = cur)) with
    | none => (db, acc)
    | some row =>
      match row.sponsor_id with
      | none => (db, acc)
      | some sid =>
        if sid ∈ visited ∨ sid = cur then (db, acc)
        else
          match (getUserActivePackInfo db sid).1 with
          | none => catalystLoop amount refDate rest sid (sid :: visited) db acc
          | some _ =>
            let raw := amount * rate
            let allowed := (clampIncentive db sid raw).1
            if allowed > 0 then
              let db1 := creditWallet db sid allowed
              let db2 := insertTxn db1 ⟨sid, .catalystBonus, allowed, .completed, refDate⟩
              catalystLoop amount refDate rest sid (sid :: visited) db2
                (acc ++ [⟨level, sid, raw, allowed⟩])
            else
              catalystLoop amount refDate rest sid (sid :: visited) db acc

/-- `distributeCatalystBonus` (walletController): walk the sponsor chain up to
9 levels paying the per-level rate of the origin stake amount. -/
def distributeCatalystBonus (db : DB) (originUserId : Nat) (amount : ℚ) (refDate : Int) :
    DB × List CatPayment :=
  catalystLoop amount refDate indexedCatalystRates originUserId [] db []

/-- Look up whether a `users` row with this id exists and is verified
(the `users.is_verified` join condition). -/
def userIsVerified (db : DB) (uid : Nat) : Bool :=
  match db.users.find? (fun u => decide (u.id = uid)) with
  | some u => u.isVerified
  | none => false

/-- Look up whether a `users` row with this id exists at all (inner join). -/
def userExists (db : DB) (uid : Nat) : Bool :=
  (db.users.find? (fun u => decide (u.id = uid))).isSome

/-- Whether the user owns at least one stake with status `active`. -/
def hasActiveStake (db : DB) (uid : Nat) : Bool :=
  (db.stakes.find? (fun s => decide (s.user_id = uid ∧ s.status = StakeStatus.active))).isSome

/-- `Synergy.hasActiveDirectOnSide`: first genealogy row joined with a
verified user at `(parent_id = uid, position = side)`, then that direct
must own an active stake. The `users.is_active` flag is not consulted. -/
def hasActiveDirectOnSide (db : DB) (uid : Nat) (side : Side) : Bool :=
  match db.genealogy.find?
      (fun g => decide (g.parent_id = some uid ∧ g.position = some side)
        && userIsVerified db g.user_id) with
  | none => false
  | some direct => hasActiveStake db direct.user_id

/-- `Synergy.getEligibility`: an active-staked verified direct on both sides. -/
def getEligibility (db : DB) (uid : Nat) : Bool :=
  hasActiveDirectOnSide db uid Side.left && hasActiveDirectOnSide db uid Side.right

/-- Spec-shaped eligibility following the specification's words: on each side
a direct binary child that is BOTH active and verified and owns an active
stake (`§4.5 Contract — eligibility`). Used only to compare the code's
`getEligibility` against the specification. -/
def eligibilitySpecActiveVerified (db : DB) (uid : Nat) : Bool :=
  decide ((∃ g ∈ db.genealogy, g.parent_id = some uid ∧ g.position = some Side.left ∧
      (∃ u ∈ db.users, u.id = g.user_id ∧ u.isActive = true ∧ u.isVerified = true) ∧
      hasActiveStake db g.user_id = true) ∧
    (∃ g ∈ db.genealogy, g.parent_id = some uid ∧ g.position = some Side.right ∧
      (∃ u ∈ db.users, u.id = g.user_id ∧ u.isActive = true ∧ u.isVerified = true) ∧
      hasActiveStake db g.user_id = true))

/-- `Synergy.ensureVolumeRow`: fetch the user's team-volume row, inserting a
fresh all-zero row when absent. -/
def ensureVolumeRow (db : DB) (uid : Nat) : VolumeRow × DB :=
  match db.volumes.find? (fun v => decide (v.user_id = uid)) with
  | some v => (v, db)
  | none =>
    let v : VolumeRow := ⟨uid, 0, 0, 0, 0, 0, none⟩
    (v, { db with volumes := db.volumes ++ [v] })

/-- Update the team-volume row of one user in place. -/
def updateVolumeRow (db : DB) (uid : Nat) (f : VolumeRow → VolumeRow) : DB :=
  { db with volumes := db.volumes.map (fun v => if v.user_id = uid then f v else v) }

/-- `Synergy.resetDailyIfNeeded`: zero `daily_paid` and stamp today when the
stored `last_reset_date` differs from today; volumes are left untouched. -/
def resetDailyIfNeeded (db : DB) (row : VolumeRow) (today : Int) : VolumeRow × DB :=
  if row.last_reset_date = some today then (row, db)
  else
    let db' := updateVolumeRow db row.user_id
      (fun v => { v with daily_paid := 0, last_reset_date := some today })
    match db'.volumes.find? (fun v => decide (v.user_id = row.user_id)) with
    | some fresh => (fresh, db')
    | none => (row, db')

/-- `Synergy.getUserRateAndCap`: rate from the highest active pack, cap =
total active stake amount. -/
def getUserRateAndCap (db : DB) (uid : Nat) : ℚ × Option PackType × ℚ :=
  let info := getUserActivePackInfo db uid
  let rate := match info.1 with
    | some p => synergyRate p
    | none => 0
  (rate, info.1, info.2)

/-- Runtime failure of the Synergy module: `processUserCycles` references
`RewardCap`, which the module never imports (its requires are `db`, `Stake`,
`Genealogy`, `JobRun` only), so reaching that line throws a `ReferenceError`. -/
inductive SynErr | rewardCapNotDefined
deriving DecidableEq, Repr

/-- Outcome record of `processUserCycles` on the non-throwing paths. -/
structure CycleOutcome where
  cycles : Int
  reward : ℚ
  ineligible : Bool
  capReached : Bool
deriving DecidableEq, Repr

/-- `Synergy.processUserCycles`, embedded step by step from the source. The
paying path (`cyclesToPay > 0`) reaches `RewardCap.clampIncentive` with
`RewardCap` unbound in the module, so it is embedded as the thrown
`ReferenceError`. -/
def processUserCycles (db : DB) (uid : Nat) (today : Int) :
    Except SynErr (DB × CycleOutcome) :=
  let r0 := ensureVolumeRow db uid
  let r1 := resetDailyIfNeeded r0.2 r0.1 today
  let fresh := r1.1
  let db1 := r1.2
  let leftTotal := fresh.left_volume + fresh.left_carry
  let rightTotal := fresh.right_volume + fresh.right_carry
  if leftTotal < CYCLE_SIZE ∨ rightTotal < CYCLE_SIZE then
    .ok (db1, ⟨0, 0, false, false⟩)
  else
    let rc := getUserRateAndCap db1 uid
    let rate := rc.1
    let cap := rc.2.2
    if getEligibility db1 uid = false then
      .ok (db1, ⟨0, 0, true, false⟩)
    else if rate = 0 ∨ cap ≤ 0 then
      .ok (db1, ⟨0, 0, false, false⟩)
    else
      let cyclesAvailable : Int := ⌊min leftTotal rightTotal / CYCLE_SIZE⌋
      if cyclesAvailable ≤ 0 then .ok (db1, ⟨0, 0, false, false⟩)
      else
        let perCycleReward := CYCLE_SIZE * rate
        let remainingCap := max 0 (cap - fresh.daily_paid)
        let maxCyclesByCap : Int := ⌊remainingCap / perCycleReward⌋
        let cyclesToPay := min cyclesAvailable maxCyclesByCap
        if cyclesToPay ≤ 0 then
          -- cap reached: flush the weaker leg, carry the difference on the stronger side
          let weaker := min leftTotal rightTotal
          let stronger := max leftTotal rightTotal
          let isLeftWeaker := leftTotal ≤ rightTotal
          let newLeftCarry := if isLeftWeaker then 0 else stronger - weaker
          let newRightCarry := if isLeftWeaker then stronger - weaker else 0
          let db2 := updateVolumeRow db1 uid (fun v =>
            { v with left_volume := 0, right_volume := 0,
                     left_carry := newLeftCarry, right_carry := newRightCarry })
          .ok (db2, ⟨0, 0, false, true⟩)
        else
          -- const { allowed } = await RewardCap.clampIncentive(...): RewardCap is
          -- not defined in the Synergy module scope; the call throws.
          .error .rewardCapNotDefined

/-- Fuel-indexed loop of `Synergy.addVolumeToUplines`: follow `parent_id`
pointers, bumping the matching side's volume at each ancestor. The source
loop is `while (true)` with no visited set and no depth bound; `none` means
the fuel ran out with the loop still running. -/
def addVolumeFuel (amount : ℚ) : Nat → DB → Nat → Option DB
  | 0, _, _ => none
  | fuel + 1, db, cur =>
    match db.genealogy.find? (fun g => decide (g.user_id = cur)) with
    | none => some db
    | some node =>
      match node.parent_id with
      | none => some db
      | some pid =>
        let db1 := (ensureVolumeRow db pid).2
        let db2 :=
          match node.position with
          | some Side.left => updateVolumeRow db1 pid (fun v => { v with left_volume := v.left_volume + amount })
          | some Side.right => updateVolumeRow db1 pid (fun v => { v with right_volume := v.right_volume + amount })
          | none => db1
        addVolumeFuel amount fuel db2 pid

/-- Fuel-indexed loop of `Genealogy.getUpline`: the query inner-joins the
current row's `parent_id` against `users`, so the walk continues while the
row and the parent user exist; with `levels = none` there is no depth bound
and no visited set. `none` means the fuel ran out with the loop running. -/
def getUplineFuel (db : DB) (levels : Option Nat) :
    Nat → Nat → Nat → List GenealogyRow → Option (List GenealogyRow)
  | 0, _, _, _ => none
  | fuel + 1, cur, curLevel, acc =>
    let continueLoop := match levels with
      | none => true
      | some l => curLevel < l
    if continueLoop then
      match db.genealogy.find?
          (fun g => decide (g.user_id = cur)
            && (match g.parent_id with
                | some p => userExists db p
                | none => false)) with
      | none => some acc
      | some row =>
        match row.parent_id with
        | none => some acc
        | some p => getUplineFuel db levels fuel p (curLevel + 1) (acc ++ [row])
    else some acc

/-- Completed deposit volume for a date (`calculateHarvestRewardForDate`). -/
def depositSalesFor (db : DB) (dateStr : Int) : ℚ :=
  ((db.transactions.filter (fun t =>
      decide (t.created_date = dateStr ∧ t.txn_type = TxnType.deposit ∧
        t.status = TxnStatus.completed))).map (fun t => t.amount)).sum

/-- Completed stake volume for a date, summed over `ABS(amount)`. -/
def stakeSalesFor (db : DB) (dateStr : Int) : ℚ :=
  ((db.transactions.filter (fun t =>
      decide (t.created_date = dateStr ∧ t.txn_type = TxnType.stakeDebit ∧
        t.status = TxnStatus.completed))).map (fun t => |t.amount|)).sum

/-- Total shares across all active stakes. -/
def totalActiveShares (db : DB) : ℚ :=
  ((db.stakes.filter (fun s => decide (s.status = StakeStatus.active))).map
    (fun s => (s.shares : ℚ))).sum

/-- `Stake.calculateHarvestRewardForDate`: proportional share of 20% of the
configured sales measure, capped at 5% of the stake's principal. -/
def calculateHarvestRewardForDate (db : DB) (stake : StakeRow) (dateStr : Int) : ℚ :=
  let fromDeposits :=
    if db.harvestSource = HarvestSource.depositsSrc ∨ db.harvestSource = HarvestSource.combinedSrc
    then depositSalesFor db dateStr else 0
  let fromStakes :=
    if db.harvestSource = HarvestSource.stakesSrc ∨ db.harvestSource = HarvestSource.combinedSrc
    then stakeSalesFor db dateStr else 0
  let totalSales := fromDeposits + fromStakes
  if totalSales ≤ 0 then 0
  else
    let rewardPool := totalSales * (20/100)
    let totalShares := totalActiveShares db
    if totalShares ≤ 0 then 0
    else
      let perShareReward := rewardPool / totalShares
      let rawHarvest := perShareReward * (stake.shares : ℚ)
      let dailyCap := stake.amount * (5/100)
      min rawHarvest dailyCap

/-- Next synthetic id for an inserted `stake_rewards` row. -/
def nextRewardId (db : DB) : Nat :=
  db.rewards.foldl (fun m r => max m r.id) 0 + 1

/-- Predicate matching the unique `(stake_id, reward_date)` key. -/
def rewardKeyMatch (stakeId : Nat) (dateStr : Int) (r : RewardRow) : Bool :=
  decide (r.stake_id = stakeId ∧ r.reward_date = dateStr)

/-- `Stake.calculateDailyReward`: on an active stake, return the existing row
for the date unchanged, or insert a fresh `pending` core+harvest row; on a
missing or non-active stake return null. -/
def calculateDailyReward (db : DB) (stakeId : Nat) (dateStr : Int) :
    Option RewardRow × DB :=
  match findStake db stakeId with
  | none => (none, db)
  | some stake =>
    if stake.status ≠ StakeStatus.active then (none, db)
    else
      match db.rewards.find? (rewardKeyMatch stakeId dateStr) with
      | some existing => (some existing, db)
      | none =>
        let coreReward := stake.amount * stake.daily_roi_rate
        let harvestReward := calculateHarvestRewardForDate db stake dateStr
        let totalReward := coreReward + harvestReward
        let row : RewardRow :=
          ⟨nextRewardId db, stakeId, dateStr, coreReward, harvestReward, totalReward, .pending⟩
        let db' := { db with rewards := db.rewards ++ [row] }
        (db'.rewards.find? (rewardKeyMatch stakeId dateStr), db')

/-- Update one `stake_rewards` row by id. -/
def updateRewardRow (db : DB) (rid : Nat) (f : RewardRow → RewardRow) : DB :=
  { db with rewards := db.rewards.map (fun r => if r.id = rid then f r else r) }

/-- Update one `stakes` row by id. -/
def updateStakeRow (db : DB) (sid : Nat) (f : StakeRow → StakeRow) : DB :=
  { db with stakes := db.stakes.map (fun s => if s.id = sid then f s else s) }

/-- Milliseconds in a day, used by the 24-hour expiry guard. -/
def MS_PER_DAY : Int := 86400000

/-- Accumulator of the crediting loop: store state, the stake's running
cumulative total, the amount credited so far, and the pass-up counters. -/
structure CreditAcc where
  db : DB
  current : ℚ
  credited : ℚ
  passupSkips : Nat
  passupAllocations : Nat
deriving Repr

/-- One iteration of the `creditPendingRewards` loop over a pending reward:
expire stale or over-cap rewards, otherwise scale by the remaining lifetime
cap, credit the staker's share, run power pass-up on the remaining core, and
mark the reward credited with its scaled amounts. -/
def creditOne (stake : StakeRow) (maxRewards : ℚ) (nowMs : Int)
    (acc : CreditAcc) (r : RewardRow) : CreditAcc :=
  if nowMs - r.reward_date * MS_PER_DAY > MS_PER_DAY then
    { acc with db := updateRewardRow acc.db r.id (fun x => { x with status := .expired }) }
  else
    let remainingCap := maxRewards - acc.current
    if remainingCap ≤ 0 then
      { acc with db := updateRewardRow acc.db r.id (fun x => { x with status := .expired }) }
    else
      let rawRewardAmount := r.total_reward
      let rawCoreAmount := r.core_reward
      let ratio := if rawRewardAmount > remainingCap then remainingCap / rawRewardAmount else 1
      let rewardAmount := rawRewardAmount * ratio
      let coreAmount := rawCoreAmount * ratio
      let harvestAmount := r.harvest_reward * ratio
      let stakerRankPercent := getUserRankPercent acc.db stake.user_id
      let stakerCorePortion := coreAmount * (stakerRankPercent / 100)
      let stakerTotalCredit := harvestAmount + stakerCorePortion
      let db1 := creditWallet acc.db stake.user_id stakerTotalCredit
      let db2 := insertTxn db1 ⟨stake.user_id, .stakeReward, stakerTotalCredit, .completed, r.reward_date⟩
      let remainingCoreAmount := coreAmount - stakerCorePortion
      let afterPass :=
        if remainingCoreAmount > 0 then
          let res := distributePowerPassUp db2 stake.user_id remainingCoreAmount r.reward_date
          (res.db, acc.passupSkips + (if res.distributed ≤ 0 then 1 else 0),
            acc.passupAllocations + res.allocations.length)
        else (db2, acc.passupSkips, acc.passupAllocations)
      let db4 := updateRewardRow afterPass.1 r.id (fun x =>
        { x with status := .credited, core_reward := coreAmount,
                 harvest_reward := harvestAmount, total_reward := rewardAmount })
      ⟨db4, acc.current + rewardAmount, acc.credited + rewardAmount,
        afterPass.2.1, afterPass.2.2⟩

/-- Result summary returned by `creditPendingRewards`. -/
structure CreditSummary where
  credited : Nat
  totalAmount : ℚ
  passupSkips : Nat
  passupAllocations : Nat
deriving DecidableEq, Repr

/-- Pending rewards of a stake ordered oldest-first (`orderBy reward_date asc`). -/
def pendingRewardsOf (db : DB) (stakeId : Nat) : List RewardRow :=
  (db.rewards.filter (fun r => decide (r.stake_id = stakeId ∧ r.status = RewardStatus.pending))).mergeSort
    (fun a b => a.reward_date ≤ b.reward_date)

/-- `Stake.creditPendingRewards` over all pending rewards of the stake: the
loop above, then the final cumulative-total write and the `completed`
transition when the lifetime cap is reached. The stake row is assumed to
exist, as every caller passes the id of a previously fetched stake. -/
def creditPendingRewards (db : DB) (stakeId : Nat) (nowMs : Int) : DB × CreditSummary :=
  let pending := pendingRewardsOf db stakeId
  if pending.isEmpty then (db, ⟨0, 0, 0, 0⟩)
  else
    match findStake db stakeId with
    | none => (db, ⟨0, 0, 0, 0⟩)
    | some stake =>
      let maxRewards := stake.amount * (stake.max_reward_limit / 100)
      let res := pending.foldl (creditOne stake maxRewards nowMs)
        ⟨db, stake.total_rewards_earned, 0, 0, 0⟩
      let db5 :=
        if res.credited > 0 then
          let dbA := updateStakeRow res.db stakeId
            (fun s => { s with total_rewards_earned := res.current })
          if res.current ≥ maxRewards then
            updateStakeRow dbA stakeId (fun s => { s with status := .completed })
          else dbA
        else res.db
      (db5, ⟨pending.length, res.credited, res.passupSkips, res.passupAllocations⟩)

/-- `Stake.expirePendingRewards`: expire pending rewards dated before the run
date; returns the updated store and the number of rows expired. -/
def expirePendingRewards (db : DB) (dateStr : Int) : DB × Nat :=
  let hit := fun (r : RewardRow) =>
    decide (r.reward_date < dateStr ∧ r.status = RewardStatus.pending)
  let newRewards := db.rewards.map (fun r => if hit r then { r with status := .expired } else r)
  ({ db with rewards := newRewards }, (db.rewards.filter hit).length)

/-- `JobRun.getStatus`: the job's most recent row by `run_date`. -/
def getStatus (db : DB) (name : JobName) : Option JobRow :=
  (db.jobs.filter (fun j => decide (j.job_name = name))).foldl
    (fun acc j =>
      match acc with
      | none => some j
      | some b => if j.run_date > b.run_date then some j else some b)
    none

/-- `JobRun.start`: insert a `running` row keyed by (job, date); on the unique
key conflict the existing row is kept. -/
def jobStart (db : DB) (name : JobName) (dateStr : Int) : DB :=
  if (db.jobs.find? (fun j => decide (j.job_name = name ∧ j.run_date = dateStr))).isSome
  then db
  else { db with jobs := db.jobs ++ [⟨name, dateStr, .running⟩] }

/-- `JobRun.finish`: update the (job, date) row to the final status. -/
def jobFinish (db : DB) (name : JobName) (dateStr : Int) (st : JobStatus) : DB :=
  { db with jobs := db.jobs.map (fun j =>
      if j.job_name = name ∧ j.run_date = dateStr then { j with status := st } else j) }

/-- Result of the daily core+harvest batch. -/
structure BatchResult where
  skipped : Bool
  processed : Nat
  rewardsCreated : Nat
  capHits : Nat
  expired : Nat
deriving DecidableEq, Repr

/-- Accrual sweep over the active stakes inside `runDailyCoreHarvest`. -/
def accrueAll (dateStr : Int) : List Nat → DB → Nat → Nat → Nat → DB × Nat × Nat × Nat
  | [], db, processed, created, capHits => (db, processed, created, capHits)
  | sid :: rest, db, processed, created, capHits =>
    let r := calculateDailyReward db sid dateStr
    match r.1 with
    | some _ => accrueAll dateStr rest r.2 (processed + 1) (created + 1) capHits
    | none =>
      let hit := match findStake r.2 sid with
        | some st => if st.status = StakeStatus.completed then 1 else 0
        | none => 0
      accrueAll dateStr rest r.2 (processed + 1) created (capHits + hit)

/-- `Stake.runDailyCoreHarvest`: skip when the job's most recent run is
today's and succeeded; otherwise start the job run, expire stale pending
rewards, accrue every active stake, and finish with success. -/
def runDailyCoreHarvest (db : DB) (dateStr : Int) : DB × BatchResult :=
  let existing := getStatus db JobName.coreHarvest
  let alreadyRan := match existing with
    | some ex => decide (ex.run_date = dateStr ∧ ex.status = JobStatus.success)
    | none => false
  if alreadyRan then (db, ⟨true, 0, 0, 0, 0⟩)
  else
    let db1 := jobStart db JobName.coreHarvest dateStr
    let exp := expirePendingRewards db1 dateStr
    let ids := (exp.1.stakes.filter (fun s => decide (s.status = StakeStatus.active))).map
      (fun s => s.id)
    let sweep := accrueAll dateStr ids exp.1 0 0 0
    let db3 := jobFinish sweep.1 JobName.coreHarvest dateStr .success
    (db3, ⟨false, sweep.2.1, sweep.2.2.1, sweep.2.2.2, exp.2⟩)

/-- At most one genealogy row occupies a given (parent, position) slot —
the binary-tree placement invariant from the data model. -/
def SlotUnique (db : DB) : Prop :=
  ∀ g1 ∈ db.genealogy, ∀ g2 ∈ db.genealogy,
    g1.parent_id ≠ none → g1.parent_id = g2.parent_id → g1.position = g2.position → g1 = g2

/-- Store with a 5-sponsor chain whose stored rank percents are, in upline
order, 5, 25, 40, 15, 70, each sponsor holding a large active quantum stake
(ample cap headroom). -/
def dbPass : DB :=
  ⟨[⟨1, true, true⟩, ⟨2, true, true⟩, ⟨3, true, true⟩, ⟨4, true, true⟩, ⟨5, true, true⟩,
      ⟨6, true, true⟩],
    [⟨1, none, some 2, none⟩, ⟨2, none, some 3, none⟩, ⟨3, none, some 4, none⟩,
      ⟨4, none, some 5, none⟩, ⟨5, none, some 6, none⟩, ⟨6, none, none, none⟩],
    [⟨2, 2, .quantum, 400, 10000, 1/100, 500, 0, .active⟩,
      ⟨3, 3, .quantum, 400, 10000, 1/100, 500, 0, .active⟩,
      ⟨4, 4, .quantum, 400, 10000, 1/100, 500, 0, .active⟩,
      ⟨5, 5, .quantum, 400, 10000, 1/100, 500, 0, .active⟩,
      ⟨6, 6, .quantum, 400, 10000, 1/100, 500, 0, .active⟩],
    [], [],
    [⟨1, 0⟩, ⟨2, 0⟩, ⟨3, 0⟩, ⟨4, 0⟩, ⟨5, 0⟩, ⟨6, 0⟩],
    [],
    [⟨2, 5⟩, ⟨3, 25⟩, ⟨4, 40⟩, ⟨5, 15⟩, ⟨6, 70⟩],
    [], [], .stakesSrc⟩

/-- Store with a fully-staked 2-level sponsor chain above user 1, both
sponsors holding large active stakes (ample cap headroom). -/
def dbCat : DB :=
  ⟨[⟨1, true, true⟩, ⟨2, true, true⟩, ⟨3, true, true⟩],
    [⟨1, none, some 2, none⟩, ⟨2, none, some 3, none⟩, ⟨3, none, none, none⟩],
    [⟨1, 2, .quantum, 4000, 100000, 1/100, 500, 0, .active⟩,
      ⟨2, 3, .quantum, 4000, 100000, 1/100, 500, 0, .active⟩],
    [], [], [⟨2, 0⟩, ⟨3, 0⟩], [], [], [], [], .stakesSrc⟩

/-- Same chain as `dbCat` but the level-1 sponsor has no stake at all, so
the catalyst walk must skip it while the level index advances. -/
def dbCatSkip : DB :=
  ⟨[⟨1, true, true⟩, ⟨2, true, true⟩, ⟨3, true, true⟩],
    [⟨1, none, some 2, none⟩, ⟨2, none, some 3, none⟩, ⟨3, none, none, none⟩],
    [⟨1, 3, .quantum, 4000, 100000, 1/100, 500, 0, .active⟩],
    [], [], [⟨2, 0⟩, ⟨3, 0⟩], [], [], [], [], .stakesSrc⟩

/-- Store with an eligible user 1 (verified, active-staked directs on both
sides), an active spark pack (synergy rate 5%), and team volumes giving
`leftTotal = 250`, `rightTotal = 180`, with no binding daily cap. -/
def dbSyn : DB :=
  ⟨[⟨1, true, true⟩, ⟨2, true, true⟩, ⟨3, true, true⟩],
    [⟨2, some 1, some 1, some .left⟩, ⟨3, some 1, some 1, some .right⟩],
    [⟨1, 1, .spark, 4, 100, 3/1000, 200, 0, .active⟩,
      ⟨2, 2, .spark, 4, 100, 3/1000, 200, 0, .active⟩,
      ⟨3, 3, .spark, 4, 100, 3/1000, 200, 0, .active⟩],
    [], [], [⟨1, 0⟩, ⟨2, 0⟩, ⟨3, 0⟩],
    [⟨1, 250, 180, 0, 0, 0, some 20000⟩],
    [], [], [], .stakesSrc⟩

/-- Store where user 1's left direct (user 2) is verified but NOT active,
yet owns an active stake, and the right direct (user 3) is verified, active
and staked. -/
def dbElig : DB :=
  ⟨[⟨1, true, true⟩, ⟨2, false, true⟩, ⟨3, true, true⟩],
    [⟨2, some 1, some 1, some .left⟩, ⟨3, some 1, some 1, some .right⟩],
    [⟨1, 2, .spark, 4, 100, 3/1000, 200, 0, .active⟩,
      ⟨2, 3, .spark, 4, 100, 3/1000, 200, 0, .active⟩],
    [], [], [], [], [], [], [], .stakesSrc⟩

/-- Store whose binary parent pointers form a 2-cycle: user 1's parent is
user 2 and user 2's parent is user 1, both users present and verified. -/
def dbCyc : DB :=
  ⟨[⟨1, true, true⟩, ⟨2, true, true⟩],
    [⟨1, some 2, none, some .left⟩, ⟨2, some 1, none, some .right⟩],
    [], [], [], [], [], [], [], [], .stakesSrc⟩

/-- Store for the cap-info witness: one active pulse stake of 1000 (tier
limit 300%) and 200 of completed incentive spend. -/
def dbCap : DB :=
  ⟨[⟨1, true, true⟩], [],
    [⟨1, 1, .pulse, 40, 1000, 5/1000, 300, 0, .active⟩],
    [], [⟨1, .powerPassup, 200, .completed, 5⟩], [], [], [], [], [], .stakesSrc⟩

/-- Store for the crediting witness: a spark stake of 100 (cap 200) that has
already earned 150, with one pending 100 reward dated day 100. -/
def dbCredit : DB :=
  ⟨[⟨1, true, true⟩], [],
    [⟨1, 1, .spark, 4, 100, 3/1000, 200, 150, .active⟩],
    [⟨1, 1, 100, 100, 0, 100, .pending⟩],
    [], [⟨1, 0⟩], [], [], [], [], .stakesSrc⟩

/-- Store for the accrual-idempotence witness: one active stake, no reward
rows yet. -/
def dbDaily : DB :=
  ⟨[⟨1, true, true⟩], [],
    [⟨1, 1, .spark, 4, 100, 3/1000, 200, 0, .active⟩],
    [], [], [⟨1, 0⟩], [], [], [], [], .stakesSrc⟩

/-- Store for the batch-idempotence witness: the core+harvest job already
succeeded for day 60. -/
def dbJob : DB :=
  ⟨[⟨1, true, true⟩], [],
    [⟨1, 1, .spark, 4, 100, 3/1000, 200, 0, .active⟩],
    [], [], [⟨1, 0⟩], [], [],
    [⟨.coreHarvest, 60, .success⟩], [], .stakesSrc⟩

/-- Store with a single completed stake, for exercising the no-accrual path. -/
def dbCompleted : DB :=
  ⟨[⟨1, true, true⟩], [],
    [⟨1, 1, .spark, 4, 100, 3/1000, 200, 200, .completed⟩],
    [], [], [⟨1, 0⟩], [], [], [], [], .stakesSrc⟩

/-- Priority of an optional pack, with `none` below every pack. -/
def packPrioOpt : Option PackType → Nat
  | none => 0
  | some p => packPriority p

instance slotUniqueDecidable (db : DB) : Decidable (SlotUnique db) := by
  unfold SlotUnique
  infer_instance

lemma ensureVolumeRow_genealogy (db : DB) (uid : Nat) :
    (ensureVolumeRow db uid).2.genealogy = db.genealogy := by
  unfold ensureVolumeRow
  split <;> rfl

lemma updateVolumeRow_genealogy (db : DB) (uid : Nat) (f : VolumeRow → VolumeRow) :
    (updateVolumeRow db uid f).genealogy = db.genealogy := rfl

lemma addVolume_cyc_loop : ∀ (fuel : Nat) (db : DB), db.genealogy = dbCyc.genealogy →
    ∀ cur, cur = 1 ∨ cur = 2 → addVolumeFuel 50 fuel db cur = none := by
  intro fuel
  induction fuel with
  | zero => intro db _ cur _; rfl
  | succ n ih =>
    intro db h cur hc
    rcases hc with hc | hc <;> subst hc
    · rw [addVolumeFuel, h]
      have h1 : dbCyc.genealogy.find? (fun g => decide (g.user_id = 1)) =
          some ⟨1, some 2, none, some Side.left⟩ := by rfl
      rw [h1]
      exact ih _ (by rw [updateVolumeRow_genealogy, ensureVolumeRow_genealogy, h]) 2 (Or.inr rfl)
    · rw [addVolumeFuel, h]
      have h2 : dbCyc.genealogy.find? (fun g => decide (g.user_id = 2)) =
          some ⟨2, some 1, none, some Side.right⟩ := by rfl
      rw [h2]
      exact ih _ (by rw [updateVolumeRow_genealogy, ensureVolumeRow_genealogy, h]) 1 (Or.inl rfl)

lemma getUpline_cyc_loop : ∀ (fuel : Nat) (cur lvl : Nat) (acc : List GenealogyRow),
    cur = 1 ∨ cur = 2 → getUplineFuel dbCyc none fuel cur lvl acc = none := by
  intro fuel
  induction fuel with
  | zero => intro cur lvl acc _; rfl
  | succ n ih =>
    intro cur lvl acc hc
    rcases hc with hc | hc <;> subst hc
    · show getUplineFuel dbCyc none (n + 1) 1 lvl acc = none
      rw [getUplineFuel]
      exact ih 2 (lvl + 1) _ (Or.inr rfl)
    · show getUplineFuel dbCyc none (n + 1) 2 lvl acc = none
      rw [getUplineFuel]
      exact ih 1 (lvl + 1) _ (Or.inl rfl)

/-- C8: the claim says every upline walk terminates even on cyclic pointer
data; on the 2-cycle store `dbCyc` the uncapped `Genealogy.getUpline` loop
and the `Synergy.addVolumeToUplines` loop never exit: for every amount of
fuel the loop is still running (neither has a visited set or depth bound). -/
theorem c8_upline_walks_diverge_on_cycle :
    (∀ fuel, getUplineFuel dbCyc none fuel 1 0 [] = none) ∧
      (∀ fuel, addVolumeFuel 50 fuel dbCyc 1 = none) := by
  constructor
  · intro fuel
    exact getUpline_cyc_loop fuel 1 0 [] (Or.inl rfl)
  · intro fuel
    exact addVolume_cyc_loop fuel dbCyc rfl 1 (Or.inl rfl)

/-- C3: on an eligible participant with `leftTotal = 250`, `rightTotal = 180`,
synergy rate 5% and no binding daily cap, `processUserCycles` reaches the
payable-cycles branch and throws `ReferenceError: RewardCap is not defined`
(the Synergy module never imports RewardCap) instead of paying the 1-cycle
$5 reward the claim describes. -/
theorem c3_synergy_throws_instead_of_paying :
    processUserCycles dbSyn 1 20000 = .error .rewardCapNotDefined := by
  simp +decide [processUserCycles, dbSyn, ensureVolumeRow, resetDailyIfNeeded, updateVolumeRow,
    getUserRateAndCap, getUserActivePackInfo, activeStakesOf, packInfoStep, getEligibility,
    hasActiveDirectOnSide, userIsVerified, hasActiveStake, synergyRate, CYCLE_SIZE,
    List.find?, List.filter]
  norm_num

/-- C7: when the most recent `job_runs` row of the core+harvest job is for
the run date and succeeded, `runDailyCoreHarvest` reports skipped and leaves
the store untouched (no new stake_rewards rows, no expiry). -/
theorem c7_daily_batch_idempotent : ∀ (db : DB) (d : Int) (ex : JobRow),
    getStatus db JobName.coreHarvest = some ex → ex.run_date = d →
    ex.status = JobStatus.success →
    runDailyCoreHarvest db d = (db, ⟨true, 0, 0, 0, 0⟩) := by
  intro db d ex hst hd hs
  unfold runDailyCoreHarvest
  rw [hst]
  simp [hd, hs]

/-- Witness for C7 on the concrete store `dbJob`, whose core+harvest job row
for day 60 is `success`. -/
theorem c7_witness :
    getStatus dbJob JobName.coreHarvest = some ⟨.coreHarvest, 60, .success⟩ ∧
      runDailyCoreHarvest dbJob 60 = (dbJob, ⟨true, 0, 0, 0, 0⟩) :=
  ⟨rfl, c7_daily_batch_idempotent dbJob 60 ⟨.coreHarvest, 60, .success⟩ rfl rfl rfl⟩

/-- C9 fails as stated: on `dbElig` the left direct (user 2) is verified but
not active, yet owns an active stake, and the code reports eligibility while
the specification's active-and-verified reading does not. -/
theorem c9_counterexample :
    getEligibility dbElig 1 = true ∧ eligibilitySpecActiveVerified dbElig 1 = false := by
  decide

lemma hasActiveDirectOnSide_iff (db : DB) (uid : Nat) (side : Side) (hu : SlotUnique db) :
    hasActiveDirectOnSide db uid side = true ↔
      ∃ g ∈ db.genealogy, g.parent_id = some uid ∧ g.position = some side ∧
        userIsVerified db g.user_id = true ∧ hasActiveStake db g.user_id = true := by
  unfold hasActiveDirectOnSide
  constructor
  · intro hres
    cases hfind : db.genealogy.find?
        (fun g => decide (g.parent_id = some uid ∧ g.position = some side)
          && userIsVerified db g.user_id) with
    | none => rw [hfind] at hres; cases hres
    | some d =>
      rw [hfind] at hres
      have hp := List.find?_some hfind
      have hmem := List.mem_of_find?_eq_some hfind
      rw [Bool.and_eq_true, decide_eq_true_eq] at hp
      exact ⟨d, hmem, hp.1.1, hp.1.2, hp.2, hres⟩
  · rintro ⟨g, hg, hpar, hpos, hver, hstake⟩
    have hsat : ∃ x ∈ db.genealogy,
        (decide (x.parent_id = some uid ∧ x.position = some side)
          && userIsVerified db x.user_id) = true :=
      ⟨g, hg, by rw [Bool.and_eq_true, decide_eq_true_eq]; exact ⟨⟨hpar, hpos⟩, hver⟩⟩
    have hsome := List.find?_isSome.mpr hsat
    cases hfind : db.genealogy.find?
        (fun g => decide (g.parent_id = some uid ∧ g.position = some side)
          && userIsVerified db g.user_id) with
    | none => rw [hfind] at hsome; cases hsome
    | some d =>
      have hp := List.find?_some hfind
      have hmem := List.mem_of_find?_eq_some hfind
      rw [Bool.and_eq_true, decide_eq_true_eq] at hp
      have hdg : d = g := by
        refine hu d hmem g hg ?_ ?_ ?_
        · rw [hp.1.1]; exact Option.some_ne_none uid
        · rw [hp.1.1, hpar]
        · rw [hp.1.2, hpos]
      show hasActiveStake db d.user_id = true
      rw [hdg]
      exact hstake

/-- C9 amended: with the placement invariant (at most one child per
(parent, position) slot), `getEligibility` is true exactly when each side has
a verified direct child owning an active stake — the child's active flag is
not consulted. -/
theorem c9_eligibility_amended : ∀ (db : DB) (uid : Nat), SlotUnique db →
    (getEligibility db uid = true ↔
      (∃ g ∈ db.genealogy, g.parent_id = some uid ∧ g.position = some Side.left ∧
        userIsVerified db g.user_id = true ∧ hasActiveStake db g.user_id = true) ∧
      (∃ g ∈ db.genealogy, g.parent_id = some uid ∧ g.position = some Side.right ∧
        userIsVerified db g.user_id = true ∧ hasActiveStake db g.user_id = true)) := by
  intro db uid hu
  unfold getEligibility
  rw [Bool.and_eq_true, hasActiveDirectOnSide_iff db uid Side.left hu,
    hasActiveDirectOnSide_iff db uid Side.right hu]

/-- Witness for the amended C9 on the concrete store `dbSyn` (both directs
verified and actively staked). -/
theorem c9_witness :
    SlotUnique dbSyn ∧
      (getEligibility dbSyn 1 = true ↔
        (∃ g ∈ dbSyn.genealogy, g.parent_id = some 1 ∧ g.position = some Side.left ∧
          userIsVerified dbSyn g.user_id = true ∧ hasActiveStake dbSyn g.user_id = true) ∧
        (∃ g ∈ dbSyn.genealogy, g.parent_id = some 1 ∧ g.position = some Side.right ∧
          userIsVerified dbSyn g.user_id = true ∧ hasActiveStake dbSyn g.user_id = true)) :=
  ⟨by decide, c9_eligibility_amended dbSyn 1 (by decide)⟩

lemma creditWallet_ranks (db : DB) (uid : Nat) (a : ℚ) :
    (creditWallet db uid a).ranks = db.ranks := rfl

lemma insertTxn_ranks (db : DB) (t : TxnRow) : (insertTxn db t).ranks = db.ranks := rfl

lemma creditWallet_stakes (db : DB) (uid : Nat) (a : ℚ) :
    (creditWallet db uid a).stakes = db.stakes := rfl

lemma insertTxn_stakes (db : DB) (t : TxnRow) : (insertTxn db t).stakes = db.stakes := rfl

lemma getUserRankPercent_congr {db1 db2 : DB} (h : db1.ranks = db2.ranks) (uid : Nat) :
    getUserRankPercent db1 uid = getUserRankPercent db2 uid := by
  unfold getUserRankPercent
  rw [h]

lemma chainBaseline_nil (db : DB) (st : ℚ) : chainBaseline db [] st = st := rfl

lemma chainBaseline_cons (db : DB) (s : Nat) (rest : List Nat) (st : ℚ) :
    chainBaseline db (s :: rest) st =
      chainBaseline db rest
        (if getUserRankPercent db s ≤ st then st else getUserRankPercent db s) := rfl

lemma chainBaseline_congr {db1 db2 : DB} (h : db1.ranks = db2.ranks) :
    ∀ (chain : List Nat) (st : ℚ), chainBaseline db1 chain st = chainBaseline db2 chain st := by
  intro chain
  induction chain with
  | nil => intro st; rfl
  | cons s rest ih =>
    intro st
    rw [chainBaseline_cons, chainBaseline_cons, getUserRankPercent_congr h, ih]

lemma passLoop_ranks (c : ℚ) (rd : Int) :
    ∀ (chain : List Nat) (db : DB) (prev : ℚ) (acc : List PassAlloc),
      (passLoop c rd chain db prev acc).1.ranks = db.ranks := by
  intro chain
  induction chain with
  | nil => intro db prev acc; rfl
  | cons sid rest ih =>
    intro db prev acc
    rw [passLoop]
    dsimp only
    split
    · exact ih db prev acc
    · split
      · exact ih db _ acc
      · split
        · rw [ih]
          rfl
        · exact ih db _ acc

lemma passLoop_stakes (c : ℚ) (rd : Int) :
    ∀ (chain : List Nat) (db : DB) (prev : ℚ) (acc : List PassAlloc),
      (passLoop c rd chain db prev acc).1.stakes = db.stakes := by
  intro chain
  induction chain with
  | nil => intro db prev acc; rfl
  | cons sid rest ih =>
    intro db prev acc
    rw [passLoop]
    dsimp only
    split
    · exact ih db prev acc
    · split
      · exact ih db _ acc
      · split
        · rw [ih]
          rfl
        · exact ih db _ acc

lemma passLoop_baseline (c : ℚ) (rd : Int) :
    ∀ (chain : List Nat) (db : DB) (prev : ℚ) (acc : List PassAlloc),
      (passLoop c rd chain db prev acc).2.1 = chainBaseline db chain prev := by
  intro chain
  induction chain with
  | nil => intro db prev acc; rfl
  | cons sid rest ih =>
    intro db prev acc
    rw [passLoop, chainBaseline_cons]
    dsimp only
    split
    · exact ih db prev acc
    · split
      · exact ih db _ acc
      · split
        · rw [ih]
          exact chainBaseline_congr rfl rest _
        · exact ih db _ acc

set_option maxHeartbeats 1600000 in
/-- C2: on the 5-sponsor chain with stored rank percents 5, 25, 40, 15, 70
and ample headroom, `distributePowerPassUp` with core amount 100 credits the
allocations $5, $20, $15 and $30 (the 15%-ranked fourth upline is skipped
with the baseline unchanged), distributes $70 in total and ends with baseline
70; and in every distribution the final baseline is the cap-independent fold
of the stored rank percents (advanced after each rank-increasing sponsor,
whatever the cap allowed). -/
theorem c2_power_passup_allocation :
    ((distributePowerPassUp dbPass 1 100 7).allocations =
        [⟨2, 5, 5⟩, ⟨3, 20, 20⟩, ⟨4, 15, 15⟩, ⟨6, 30, 30⟩] ∧
      (distributePowerPassUp dbPass 1 100 7).distributed = 70 ∧
      (distributePowerPassUp dbPass 1 100 7).finalBaseline = 70) ∧
    (∀ (db : DB) (o : Nat) (c : ℚ) (rd : Int),
      (distributePowerPassUp db o c rd).finalBaseline =
        if c ≤ 0 then 0 else chainBaseline db (getSponsorChain db o) 0) := by
  constructor
  · norm_num [distributePowerPassUp, getSponsorChain, getSponsorChainAux, dbPass, passLoop,
      getUserRankPercent, clampIncentive, getCapInfo, getUserActivePackInfo, activeStakesOf,
      packInfoStep, incentiveUsedSum, creditWallet, insertTxn, packMaxLimit, packPriority,
      List.find?, List.filter, isIncentiveType]
  · intro db o c rd
    unfold distributePowerPassUp
    split
    · rfl
    · dsimp only
      exact passLoop_baseline c rd (getSponsorChain db o) db 0 []

lemma catalystLoop_spec (amt : ℚ) (rd : Int) :
    ∀ (rl : List (Nat × ℚ)) (cur : Nat) (visited : List Nat) (db : DB) (acc : List CatPayment),
      ∃ nw, (catalystLoop amt rd rl cur visited db acc).2 = acc ++ nw ∧
        nw.length ≤ rl.length ∧
        (nw.map CatPayment.sponsorId).Nodup ∧
        (∀ s ∈ nw.map CatPayment.sponsorId, s ∉ visited) ∧
        (∀ p ∈ nw, ∃ r, (p.level, r) ∈ rl ∧ p.raw = amt * r) := by
  intro rl
  induction rl with
  | nil =>
    intro cur visited db acc
    exact ⟨[], by simp [catalystLoop], by simp, by simp, by simp, by simp⟩
  | cons lr rest ih =>
    intro cur visited db acc
    obtain ⟨level, rate⟩ := lr
    rw [catalystLoop]
    cases hfind : db.genealogy.find? (fun g => decide (g.user_id = cur)) with
    | none => exact ⟨[], by simp, by simp, by simp, by simp, by simp⟩
    | some row =>
      dsimp only
      cases hspn : row.sponsor_id with
      | none =>
        exact ⟨[], by simp, by simp, by simp, by simp, by simp⟩
      | some sid =>
        dsimp only
        by_cases hvis : sid ∈ visited ∨ sid = cur
        · rw [if_pos hvis]
          exact ⟨[], by simp, by simp, by simp, by simp, by simp⟩
        · rw [if_neg hvis]
          cases hpack : (getUserActivePackInfo db sid).1 with
          | none =>
            obtain ⟨nw, h1, h2, h3, h4, h5⟩ := ih sid (sid :: visited) db acc
            refine ⟨nw, h1, Nat.le_trans h2 (Nat.le_succ _), h3, ?_, ?_⟩
            · intro s hs hsv
              exact h4 s hs (List.mem_cons_of_mem _ hsv)
            · intro p hp
              obtain ⟨r, hr, hraw⟩ := h5 p hp
              exact ⟨r, List.mem_cons_of_mem _ hr, hraw⟩
          | some pk =>
            dsimp only
            by_cases hall : (clampIncentive db sid (amt * rate)).1 > 0
            · rw [if_pos hall]
              obtain ⟨nw, h1, h2, h3, h4, h5⟩ :=
                ih sid (sid :: visited)
                  (insertTxn (creditWallet db sid (clampIncentive db sid (amt * rate)).1)
                    ⟨sid, .catalystBonus, (clampIncentive db sid (amt * rate)).1, .completed, rd⟩)
                  (acc ++ [⟨level, sid, amt * rate, (clampIncentive db sid (amt * rate)).1⟩])
              refine ⟨⟨level, sid, amt * rate, (clampIncentive db sid (amt * rate)).1⟩ :: nw,
                ?_, ?_, ?_, ?_, ?_⟩
              · rw [h1, List.append_assoc]
                rfl
              · simpa using Nat.succ_le_succ h2
              · rw [List.map_cons, List.nodup_cons]
                refine ⟨?_, h3⟩
                intro hmem
                exact h4 sid hmem (List.mem_cons_self sid visited)
              · intro s hs hsv
                rw [List.map_cons] at hs
                rcases List.mem_cons.mp hs with hseq | hs2
                · apply hvis
                  left
                  have hs3 : s = sid := hseq
                  rw [← hs3]
                  exact hsv
                · exact h4 s hs2 (List.mem_cons_of_mem _ hsv)
              · intro p hp
                rcases List.mem_cons.mp hp with hpe | hp2
                · subst hpe
                  exact ⟨rate, List.mem_cons_self _ _, rfl⟩
                · obtain ⟨r, hr, hraw⟩ := h5 p hp2
                  exact ⟨r, List.mem_cons_of_mem _ hr, hraw⟩
            · rw [if_neg hall]
              obtain ⟨nw, h1, h2, h3, h4, h5⟩ := ih sid (sid :: visited) db acc
              refine ⟨nw, h1, Nat.le_trans h2 (Nat.le_succ _), h3, ?_, ?_⟩
              · intro s hs hsv
                exact h4 s hs (List.mem_cons_of_mem _ hsv)
              · intro p hp
                obtain ⟨r, hr, hraw⟩ := h5 p hp
                exact ⟨r, List.mem_cons_of_mem _ hr, hraw⟩

set_option maxHeartbeats 1600000 in
/-- C4: catalyst distribution walks the sponsor chain over the 9-entry rate
table; each recorded payment's raw amount is the per-level rate applied to
the origin amount (never decayed by skips) at a level below 9, at most 9
payments happen, a no-stake sponsor is skipped while the level advances
(second concrete run), and the $1000 stake with a fully-staked 2-level chain
pays $90 then $30 (first concrete run). -/
theorem c4_catalyst_decay :
    ((distributeCatalystBonus dbCat 1 1000 7).2 =
        [⟨0, 2, 90, 90⟩, ⟨1, 3, 30, 30⟩]) ∧
      ((distributeCatalystBonus dbCatSkip 1 1000 7).2 = [⟨1, 3, 30, 30⟩]) ∧
      (∀ (db : DB) (o : Nat) (amt : ℚ) (rd : Int),
        (distributeCatalystBonus db o amt rd).2.length ≤ 9 ∧
          ∀ p ∈ (distributeCatalystBonus db o amt rd).2,
            p.level < 9 ∧ p.raw = amt * catalystRateAt p.level) := by
  refine ⟨?_, ?_, ?_⟩
  · norm_num [distributeCatalystBonus, catalystLoop, indexedCatalystRates, catalystRates,
      List.range, List.range.loop, dbCat, clampIncentive, getCapInfo, getUserActivePackInfo,
      activeStakesOf, packInfoStep, incentiveUsedSum, creditWallet, insertTxn, packMaxLimit,
      packPriority, List.find?, List.filter, isIncentiveType]
  · norm_num [distributeCatalystBonus, catalystLoop, indexedCatalystRates, catalystRates,
      List.range, List.range.loop, dbCatSkip, clampIncentive, getCapInfo, getUserActivePackInfo,
      activeStakesOf, packInfoStep, incentiveUsedSum, creditWallet, insertTxn, packMaxLimit,
      packPriority, List.find?, List.filter, isIncentiveType]
  · intro db o amt rd
    obtain ⟨nw, h1, h2, _, _, h5⟩ :=
      catalystLoop_spec amt rd indexedCatalystRates o [] db []
    have hres : (distributeCatalystBonus db o amt rd).2 = nw := by
      rw [distributeCatalystBonus, h1]
      rfl
    constructor
    · rw [hres]
      exact Nat.le_trans h2 (by norm_num [indexedCatalystRates, catalystRates])
    · intro p hp
      rw [hres] at hp
      obtain ⟨r, hr, hraw⟩ := h5 p hp
      have hfact : ∀ q ∈ indexedCatalystRates, q.1 < 9 ∧ q.2 = catalystRateAt q.1 := by
        intro q hq
        rw [show indexedCatalystRates =
            [(0, 9/100), (1, 3/100), (2, 1/100), (3, 5/1000), (4, 5/1000), (5, 25/10000),
              (6, 25/10000), (7, 25/10000), (8, 25/10000)] from rfl] at hq
        simp only [List.mem_cons, List.not_mem_nil, or_false] at hq
        rcases hq with h | h | h | h | h | h | h | h | h <;> subst h <;>
          exact ⟨by norm_num, rfl⟩
      obtain ⟨hl, hrq⟩ := hfact (p.level, r) hr
      have hrq2 : r = catalystRateAt p.level := hrq
      exact ⟨hl, by rw [hraw, hrq2]⟩

/-- Witness for C4's universally quantified part, discharging the membership
hypothesis at the first concrete payment of the `dbCat` run. -/
theorem c4_witness :
    (⟨0, 2, 90, 90⟩ : CatPayment) ∈ (distributeCatalystBonus dbCat 1 1000 7).2 ∧
      ((⟨0, 2, 90, 90⟩ : CatPayment).level < 9 ∧
        (⟨0, 2, 90, 90⟩ : CatPayment).raw = 1000 * catalystRateAt (⟨0, 2, 90, 90⟩ : CatPayment).level) :=
  ⟨by rw [(c4_catalyst_decay).1]; exact List.mem_cons_self _ _,
    (c4_catalyst_decay).2.2 dbCat 1 1000 7 |>.2 ⟨0, 2, 90, 90⟩
      (by rw [(c4_catalyst_decay).1]; exact List.mem_cons_self _ _)⟩

/-- C10: in one catalyst distribution no sponsor is ever credited twice and
at most 9 payments are recorded, on every store, including stores whose
sponsor chain repeats ids, points to itself, or cycles. -/
theorem c10_catalyst_single_credit :
    ∀ (db : DB) (o : Nat) (amt : ℚ) (rd : Int),
      ((distributeCatalystBonus db o amt rd).2.map CatPayment.sponsorId).Nodup ∧
        (distributeCatalystBonus db o amt rd).2.length ≤ 9 := by
  intro db o amt rd
  obtain ⟨nw, h1, h2, h3, _, _⟩ :=
    catalystLoop_spec amt rd indexedCatalystRates o [] db []
  have hres : (distributeCatalystBonus db o amt rd).2 = nw := by
    rw [distributeCatalystBonus, h1]
    rfl
  rw [hres]
  exact ⟨h3, Nat.le_trans h2 (by norm_num [indexedCatalystRates, catalystRates])⟩

lemma packPrioOpt_none : packPrioOpt none = 0 := rfl

lemma packPrioOpt_some (p : PackType) : packPrioOpt (some p) = packPriority p := rfl

lemma packInfoStep_fst (hp0 : Option PackType) (t0 : ℚ) (s : StakeRow) :
    (packPrioOpt hp0 ≤ packPrioOpt (packInfoStep (hp0, t0) s).1) ∧
      (packPriority s.pack_type ≤ packPrioOpt (packInfoStep (hp0, t0) s).1) ∧
      ((packInfoStep (hp0, t0) s).1 = hp0 ∨ (packInfoStep (hp0, t0) s).1 = some s.pack_type) := by
  unfold packInfoStep
  cases hp0 with
  | none =>
    exact ⟨Nat.zero_le _, Nat.le_refl _, Or.inr rfl⟩
  | some q =>
    dsimp only
    by_cases h : packPriority s.pack_type > packPriority q
    · rw [if_pos h]
      exact ⟨Nat.le_of_lt h, Nat.le_refl _, Or.inr rfl⟩
    · rw [if_neg h]
      exact ⟨Nat.le_refl _, Nat.le_of_not_lt h, Or.inl rfl⟩

lemma packInfo_fst_spec :
    ∀ (l : List StakeRow) (hp0 : Option PackType) (t0 : ℚ),
      (packPrioOpt hp0 ≤ packPrioOpt (l.foldl packInfoStep (hp0, t0)).1) ∧
        (∀ s ∈ l, packPriority s.pack_type ≤ packPrioOpt (l.foldl packInfoStep (hp0, t0)).1) ∧
        ((l.foldl packInfoStep (hp0, t0)).1 = hp0 ∨
          ∃ s ∈ l, (l.foldl packInfoStep (hp0, t0)).1 = some s.pack_type) := by
  intro l
  induction l with
  | nil =>
    intro hp0 t0
    exact ⟨Nat.le_refl _, by simp, Or.inl rfl⟩
  | cons s rest ih =>
    intro hp0 t0
    rw [List.foldl_cons]
    obtain ⟨hs1, hs2, hs3⟩ := packInfoStep_fst hp0 t0 s
    obtain ⟨h1, h2, h3⟩ := ih (packInfoStep (hp0, t0) s).1 (packInfoStep (hp0, t0) s).2
    refine ⟨Nat.le_trans hs1 h1, ?_, ?_⟩
    · intro x hx
      rcases List.mem_cons.mp hx with hxe | hx2
      · subst hxe
        exact Nat.le_trans hs2 h1
      · exact h2 x hx2
    · rcases h3 with h3 | ⟨x, hx, hxe⟩
      · rcases hs3 with hs3 | hs3
        · exact Or.inl (h3.trans hs3)
        · exact Or.inr ⟨s, List.mem_cons_self _ _, h3.trans hs3⟩
      · exact Or.inr ⟨x, List.mem_cons_of_mem _ hx, hxe⟩

lemma packInfo_snd :
    ∀ (l : List StakeRow) (hp0 : Option PackType) (t0 : ℚ),
      (l.foldl packInfoStep (hp0, t0)).2 = t0 + (l.map (fun s => s.amount)).sum := by
  intro l
  induction l with
  | nil => intro hp0 t0; simp
  | cons s rest ih =>
    intro hp0 t0
    rw [List.foldl_cons, List.map_cons, List.sum_cons]
    calc (List.foldl packInfoStep (packInfoStep (hp0, t0) s) rest).2
        = (List.foldl packInfoStep ((packInfoStep (hp0, t0) s).1, t0 + s.amount) rest).2 := rfl
      _ = (t0 + s.amount) + (List.map (fun s => s.amount) rest).sum := ih _ _
      _ = t0 + (s.amount + (List.map (fun s => s.amount) rest).sum) := by ring

lemma capInfo_available_nonneg (db : DB) (uid : Nat) :
    0 ≤ (getCapInfo db uid).available := by
  unfold getCapInfo
  dsimp only
  split
  · exact le_refl 0
  · split
    · exact le_refl 0
    · exact le_max_left 0 _

lemma getCapInfo_congr {db1 db2 : DB} (hs : db1.stakes = db2.stakes)
    (ht : db1.transactions = db2.transactions) (uid : Nat) :
    getCapInfo db1 uid = getCapInfo db2 uid := by
  unfold getCapInfo getUserActivePackInfo activeStakesOf incentiveUsedSum
  rw [hs, ht]

/-- C5: the cap ledger returns `capAmount = totalActiveStake × tierMax/100`
with the tier taken from the highest-priority active pack, `used` the sum of
completed incentive transactions and `available = max 0 (cap − used)`;
clamping yields `max 0 (min proposed available)`; with no active stake every
clamp is zero; and clamping is a pure function of the stakes and
transactions tables, so repeated clamps agree. -/
theorem c5_cap_ledger :
    (∀ (db : DB) (uid : Nat) (p : PackType) (t : ℚ),
      getUserActivePackInfo db uid = (some p, t) → 0 < t →
        IsHighestActivePack db uid p ∧ t = activeStakeAmountSum db uid ∧
          getCapInfo db uid = ⟨t * (packMaxLimit p / 100), packMaxLimit p,
            max 0 (t * (packMaxLimit p / 100) - incentiveUsedSum db uid),
            incentiveUsedSum db uid⟩) ∧
    (∀ (db : DB) (uid : Nat) (a : ℚ),
      (clampIncentive db uid a).1 = max 0 (min a (getCapInfo db uid).available)) ∧
    (∀ (db : DB) (uid : Nat), activeStakesOf db uid = [] →
      (getCapInfo db uid).available = 0 ∧ ∀ a, (clampIncentive db uid a).1 = 0) ∧
    (∀ (db1 db2 : DB) (uid : Nat) (a : ℚ), db1.stakes = db2.stakes →
      db1.transactions = db2.transactions →
      clampIncentive db1 uid a = clampIncentive db2 uid a) := by
  refine ⟨?_, ?_, ?_, ?_⟩
  · intro db uid p t hinfo ht
    have hfold : (activeStakesOf db uid).foldl packInfoStep (none, 0) = (some p, t) := by
      by_cases he : (activeStakesOf db uid).isEmpty
      · rw [getUserActivePackInfo, if_pos he] at hinfo
        cases hinfo
      · rw [getUserActivePackInfo, if_neg he] at hinfo
        exact hinfo
    obtain ⟨_, hmax, hmem⟩ := packInfo_fst_spec (activeStakesOf db uid) none 0
    rw [hfold] at hmax hmem
    have hsum := packInfo_snd (activeStakesOf db uid) none 0
    rw [hfold] at hsum
    refine ⟨⟨?_, ?_⟩, ?_, ?_⟩
    · rcases hmem with hmem | ⟨s, hs, hse⟩
      · simp at hmem
      · exact ⟨s, hs, (Option.some.inj hse).symm⟩
    · intro s hs
      exact hmax s hs
    · have hsum2 : t = 0 + (List.map (fun s => s.amount) (activeStakesOf db uid)).sum := hsum
      rw [activeStakeAmountSum, hsum2]
      exact zero_add _
    · rw [getCapInfo, hinfo]
      dsimp only
      rw [if_neg (not_le.mpr ht)]
  · intro db uid a
    unfold clampIncentive
    dsimp only
    by_cases h : (getCapInfo db uid).available ≤ 0
    · rw [if_pos h]
      have h0 : (getCapInfo db uid).available = 0 :=
        le_antisymm h (capInfo_available_nonneg db uid)
      rw [h0]
      exact (max_eq_left (min_le_right a 0)).symm
    · rw [if_neg h]
  · intro db uid hempty
    have hinfo : getUserActivePackInfo db uid = (none, 0) := by
      rw [getUserActivePackInfo, hempty]
      rfl
    have hcap : getCapInfo db uid = ⟨0, 0, 0, 0⟩ := by
      rw [getCapInfo, hinfo]
    refine ⟨by rw [hcap], ?_⟩
    intro a
    rw [clampIncentive, hcap]
    rfl
  · intro db1 db2 uid a hs htx
    unfold clampIncentive
    rw [getCapInfo_congr hs htx]

/-- Witness for C5 on the concrete store `dbCap` (active pulse stake of
1000, 200 of incentive spend) plus the no-stake and purity conjuncts. -/
theorem c5_witness :
    getUserActivePackInfo dbCap 1 = (some .pulse, 1000) ∧ (0:ℚ) < 1000 ∧
      (IsHighestActivePack dbCap 1 .pulse ∧ (1000:ℚ) = activeStakeAmountSum dbCap 1 ∧
        getCapInfo dbCap 1 = ⟨1000 * (packMaxLimit .pulse / 100), packMaxLimit .pulse,
          max 0 (1000 * (packMaxLimit .pulse / 100) - incentiveUsedSum dbCap 1),
          incentiveUsedSum dbCap 1⟩) ∧
      (activeStakesOf dbCap 2 = [] ∧
        ((getCapInfo dbCap 2).available = 0 ∧ ∀ a, (clampIncentive dbCap 2 a).1 = 0)) ∧
      clampIncentive dbCap 1 5000 = clampIncentive dbCap 1 5000 :=
  ⟨by norm_num [getUserActivePackInfo, activeStakesOf, packInfoStep, dbCap, List.filter],
    by norm_num,
    c5_cap_ledger.1 dbCap 1 .pulse 1000
      (by norm_num [getUserActivePackInfo, activeStakesOf, packInfoStep, dbCap, List.filter])
      (by norm_num),
    ⟨rfl, c5_cap_ledger.2.2.1 dbCap 2 rfl⟩,
    c5_cap_ledger.2.2.2 dbCap dbCap 1 5000 rfl rfl⟩

/-- C6: for an active stake with no reward row for the date yet, the first
accrual inserts exactly one row for (stake, date) and the second call is a
no-op returning that row with the store unchanged. -/
theorem c6_accrual_idempotent : ∀ (db : DB) (sid : Nat) (d : Int) (stake : StakeRow),
    findStake db sid = some stake → stake.status = StakeStatus.active →
    db.rewards.filter (rewardKeyMatch sid d) = [] →
    ((calculateDailyReward db sid d).2.rewards.filter (rewardKeyMatch sid d)).length = 1 ∧
      (calculateDailyReward db sid d).1.isSome = true ∧
      calculateDailyReward (calculateDailyReward db sid d).2 sid d =
        ((calculateDailyReward db sid d).1, (calculateDailyReward db sid d).2) := by
  intro db sid d stake hfind hact hnone
  have hf2 : db.rewards.find? (rewardKeyMatch sid d) = none :=
    List.find?_eq_none.mpr (List.filter_eq_nil_iff.mp hnone)
  have hkey : rewardKeyMatch sid d ⟨nextRewardId db, sid, d,
      stake.amount * stake.daily_roi_rate, calculateHarvestRewardForDate db stake d,
      stake.amount * stake.daily_roi_rate + calculateHarvestRewardForDate db stake d,
      .pending⟩ = true := by
    simp [rewardKeyMatch]
  have h1 : calculateDailyReward db sid d =
      ((db.rewards ++ [(⟨nextRewardId db, sid, d, stake.amount * stake.daily_roi_rate,
          calculateHarvestRewardForDate db stake d,
          stake.amount * stake.daily_roi_rate + calculateHarvestRewardForDate db stake d,
          .pending⟩ : RewardRow)]).find? (rewardKeyMatch sid d),
        { db with rewards := db.rewards ++ [⟨nextRewardId db, sid, d,
            stake.amount * stake.daily_roi_rate, calculateHarvestRewardForDate db stake d,
            stake.amount * stake.daily_roi_rate + calculateHarvestRewardForDate db stake d,
            .pending⟩] }) := by
    rw [calculateDailyReward, hfind]
    dsimp only
    rw [if_neg (by simp [hact]), hf2]
  have hfr : (db.rewards ++ [(⟨nextRewardId db, sid, d, stake.amount * stake.daily_roi_rate,
      calculateHarvestRewardForDate db stake d,
      stake.amount * stake.daily_roi_rate + calculateHarvestRewardForDate db stake d,
      .pending⟩ : RewardRow)]).find? (rewardKeyMatch sid d) =
      some ⟨nextRewardId db, sid, d, stake.amount * stake.daily_roi_rate,
        calculateHarvestRewardForDate db stake d,
        stake.amount * stake.daily_roi_rate + calculateHarvestRewardForDate db stake d,
        .pending⟩ := by
    rw [List.find?_append, hf2]
    simp [List.find?, hkey]
  have hflt : (db.rewards ++ [(⟨nextRewardId db, sid, d, stake.amount * stake.daily_roi_rate,
      calculateHarvestRewardForDate db stake d,
      stake.amount * stake.daily_roi_rate + calculateHarvestRewardForDate db stake d,
      .pending⟩ : RewardRow)]).filter (rewardKeyMatch sid d) =
      [⟨nextRewardId db, sid, d, stake.amount * stake.daily_roi_rate,
        calculateHarvestRewardForDate db stake d,
        stake.amount * stake.daily_roi_rate + calculateHarvestRewardForDate db stake d,
        .pending⟩] := by
    rw [List.filter_append, hnone]
    simp [List.filter, hkey]
  have h2 : calculateDailyReward { db with rewards := db.rewards ++
      [⟨nextRewardId db, sid, d, stake.amount * stake.daily_roi_rate,
        calculateHarvestRewardForDate db stake d,
        stake.amount * stake.daily_roi_rate + calculateHarvestRewardForDate db stake d,
        .pending⟩] } sid d =
      (some ⟨nextRewardId db, sid, d, stake.amount * stake.daily_roi_rate,
        calculateHarvestRewardForDate db stake d,
        stake.amount * stake.daily_roi_rate + calculateHarvestRewardForDate db stake d,
        .pending⟩,
      { db with rewards := db.rewards ++ [⟨nextRewardId db, sid, d,
          stake.amount * stake.daily_roi_rate, calculateHarvestRewardForDate db stake d,
          stake.amount * stake.daily_roi_rate + calculateHarvestRewardForDate db stake d,
          .pending⟩] }) := by
    rw [calculateDailyReward]
    rw [show findStake { db with rewards := db.rewards ++ [(⟨nextRewardId db, sid, d,
        stake.amount * stake.daily_roi_rate, calculateHarvestRewardForDate db stake d,
        stake.amount * stake.daily_roi_rate + calculateHarvestRewardForDate db stake d,
        .pending⟩ : RewardRow)] } sid = some stake from hfind]
    dsimp only
    rw [if_neg (by simp [hact])]
    rw [show ({ db with rewards := db.rewards ++ [(⟨nextRewardId db, sid, d,
        stake.amount * stake.daily_roi_rate, calculateHarvestRewardForDate db stake d,
        stake.amount * stake.daily_roi_rate + calculateHarvestRewardForDate db stake d,
        .pending⟩ : RewardRow)] } : DB).rewards.find? (rewardKeyMatch sid d) =
        some ⟨nextRewardId db, sid, d, stake.amount * stake.daily_roi_rate,
          calculateHarvestRewardForDate db stake d,
          stake.amount * stake.daily_roi_rate + calculateHarvestRewardForDate db stake d,
          .pending⟩ from hfr]
  refine ⟨?_, ?_, ?_⟩
  · rw [h1]
    dsimp only
    rw [hflt]
    rfl
  · rw [h1]
    dsimp only
    rw [hfr]
    rfl
  · rw [h1]
    dsimp only
    rw [hfr]
    exact h2

/-- Witness for C6 on the concrete store `dbDaily` (one active stake, no
reward rows). -/
theorem c6_witness :
    findStake dbDaily 1 = some ⟨1, 1, .spark, 4, 100, 3/1000, 200, 0, .active⟩ ∧
      (⟨1, 1, .spark, 4, 100, 3/1000, 200, 0, .active⟩ : StakeRow).status = StakeStatus.active ∧
      dbDaily.rewards.filter (rewardKeyMatch 1 50) = [] ∧
      (((calculateDailyReward dbDaily 1 50).2.rewards.filter (rewardKeyMatch 1 50)).length = 1 ∧
        (calculateDailyReward dbDaily 1 50).1.isSome = true ∧
        calculateDailyReward (calculateDailyReward dbDaily 1 50).2 1 50 =
          ((calculateDailyReward dbDaily 1 50).1, (calculateDailyReward dbDaily 1 50).2)) :=
  ⟨rfl, rfl, rfl,
    c6_accrual_idempotent dbDaily 1 50 ⟨1, 1, .spark, 4, 100, 3/1000, 200, 0, .active⟩
      rfl rfl rfl⟩

lemma updateRewardRow_stakes (db : DB) (rid : Nat) (f : RewardRow → RewardRow) :
    (updateRewardRow db rid f).stakes = db.stakes := rfl

lemma distributePowerPassUp_stakes (db : DB) (o : Nat) (c : ℚ) (rd : Int) :
    (distributePowerPassUp db o c rd).db.stakes = db.stakes := by
  unfold distributePowerPassUp
  split
  · rfl
  · dsimp only
    exact passLoop_stakes c rd (getSponsorChain db o) db 0 []

lemma creditOne_stakes (stake : StakeRow) (mx : ℚ) (now : Int) (acc : CreditAcc)
    (r : RewardRow) : (creditOne stake mx now acc r).db.stakes = acc.db.stakes := by
  unfold creditOne
  split
  · rfl
  · dsimp only
    split
    · rfl
    · dsimp only
      rw [updateRewardRow_stakes]
      split
      · split
        · rw [distributePowerPassUp_stakes]
          rfl
        · rfl
      · split
        · rw [distributePowerPassUp_stakes]
          rfl
        · rfl

lemma creditFold_stakes (stake : StakeRow) (mx : ℚ) (now : Int) :
    ∀ (l : List RewardRow) (acc : CreditAcc),
      (l.foldl (creditOne stake mx now) acc).db.stakes = acc.db.stakes := by
  intro l
  induction l with
  | nil => intro acc; rfl
  | cons r t ih =>
    intro acc
    rw [List.foldl_cons]
    rw [ih (creditOne stake mx now acc r)]
    exact creditOne_stakes stake mx now acc r

lemma creditOne_current_le (stake : StakeRow) (mx : ℚ) (now : Int) (acc : CreditAcc)
    (r : RewardRow) (h : acc.current ≤ mx) : (creditOne stake mx now acc r).current ≤ mx := by
  unfold creditOne
  split
  · exact h
  · dsimp only
    split
    · exact h
    · rename_i hrem
      dsimp only
      have hpos : 0 < mx - acc.current := by
        rw [not_le] at hrem
        exact hrem
      split
      · rename_i hgt
        have hne : r.total_reward ≠ 0 := ne_of_gt (hpos.trans hgt)
        rw [mul_comm, div_mul_cancel₀ _ hne]
        linarith
      · rename_i hgt
        rw [not_lt] at hgt
        rw [mul_one]
        linarith

lemma creditFold_current (stake : StakeRow) (mx : ℚ) (now : Int) :
    ∀ (l : List RewardRow) (acc : CreditAcc), acc.current ≤ mx →
      (l.foldl (creditOne stake mx now) acc).current ≤ mx := by
  intro l
  induction l with
  | nil => intro acc h; exact h
  | cons r t ih =>
    intro acc h
    rw [List.foldl_cons]
    exact ih (creditOne stake mx now acc r) (creditOne_current_le stake mx now acc r h)

lemma findStake_stakes_congr {db1 db2 : DB} (h : db1.stakes = db2.stakes) (sid : Nat) :
    findStake db1 sid = findStake db2 sid := by
  unfold findStake
  rw [h]

lemma find?_update_stakes (sid : Nat) (f : StakeRow → StakeRow)
    (hf : ∀ s, (f s).id = s.id) :
    ∀ (l : List StakeRow),
      (l.map (fun s => if s.id = sid then f s else s)).find? (fun s => decide (s.id = sid)) =
        (l.find? (fun s => decide (s.id = sid))).map f := by
  intro l
  induction l with
  | nil => rfl
  | cons a t ih =>
    by_cases ha : a.id = sid
    · simp [List.find?, ha, hf a]
    · simp [List.find?, ha, ih]

lemma findStake_update (db : DB) (sid : Nat) (f : StakeRow → StakeRow)
    (hf : ∀ s, (f s).id = s.id) :
    findStake (updateStakeRow db sid f) sid = (findStake db sid).map f := by
  unfold findStake updateStakeRow
  exact find?_update_stakes sid f hf db.stakes

/-- C1: over one `creditPendingRewards` call, a stake whose cumulative
credited rewards start at or below `amount × max_reward_limit/100` ends at or
below that cap (each credited reward is ratio-scaled to the remaining cap);
when anything was credited and the total reached the cap the stake status is
`completed`; and `calculateDailyReward` on a missing or non-active stake
returns null, so a completed stake accrues nothing further. -/
theorem c1_cap_invariant :
    (∀ (db : DB) (sid : Nat) (now : Int) (stake : StakeRow),
      findStake db sid = some stake →
      stake.total_rewards_earned ≤ stake.amount * (stake.max_reward_limit / 100) →
      ∃ stake2, findStake (creditPendingRewards db sid now).1 sid = some stake2 ∧
        stake2.amount = stake.amount ∧
        stake2.max_reward_limit = stake.max_reward_limit ∧
        stake2.total_rewards_earned ≤ stake2.amount * (stake2.max_reward_limit / 100) ∧
        (0 < (creditPendingRewards db sid now).2.totalAmount →
          stake2.amount * (stake2.max_reward_limit / 100) ≤ stake2.total_rewards_earned →
          stake2.status = StakeStatus.completed)) ∧
    (∀ (db : DB) (sid : Nat) (d : Int) (stake : StakeRow),
      findStake db sid = some stake → stake.status ≠ StakeStatus.active →
      (calculateDailyReward db sid d).1 = none) := by
  constructor
  · intro db sid now stake hfind hcap
    unfold creditPendingRewards
    by_cases hemp : (pendingRewardsOf db sid).isEmpty = true
    · rw [if_pos hemp]
      exact ⟨stake, hfind, rfl, rfl, hcap, fun h0 => absurd h0 (by norm_num)⟩
    · rw [if_neg hemp, hfind]
      dsimp only
      set res := (pendingRewardsOf db sid).foldl
        (creditOne stake (stake.amount * (stake.max_reward_limit / 100)) now)
        ⟨db, stake.total_rewards_earned, 0, 0, 0⟩ with hres
      have hstakes : res.db.stakes = db.stakes := by
        rw [hres]
        exact creditFold_stakes stake _ now (pendingRewardsOf db sid) ⟨db, _, 0, 0, 0⟩
      have hcur : res.current ≤ stake.amount * (stake.max_reward_limit / 100) := by
        rw [hres]
        exact creditFold_current stake _ now (pendingRewardsOf db sid) ⟨db, _, 0, 0, 0⟩ hcap
      have hfres : findStake res.db sid = some stake := by
        rw [findStake_stakes_congr hstakes]
        exact hfind
      by_cases hc : res.credited > 0
      · rw [if_pos hc]
        by_cases hm : res.current ≥ stake.amount * (stake.max_reward_limit / 100)
        · rw [if_pos hm]
          refine ⟨{ stake with total_rewards_earned := res.current, status := StakeStatus.completed }, ?_, rfl, rfl, hcur, fun _ _ => rfl⟩
          rw [findStake_update _ sid (fun s => { s with status := StakeStatus.completed })
              (fun s => rfl),
            findStake_update _ sid (fun s => { s with total_rewards_earned := res.current })
              (fun s => rfl),
            hfres]
          rfl
        · rw [if_neg hm]
          refine ⟨{ stake with total_rewards_earned := res.current }, ?_, rfl, rfl, hcur, ?_⟩
          · rw [findStake_update _ sid (fun s => { s with total_rewards_earned := res.current })
                (fun s => rfl),
              hfres]
            rfl
          · intro _ hged
            exact absurd hged hm
      · rw [if_neg hc]
        refine ⟨stake, hfres, rfl, rfl, hcap, ?_⟩
        intro h0 _
        exact absurd h0 hc
  · intro db sid d stake hfind hstat
    unfold calculateDailyReward
    rw [hfind]
    dsimp only
    rw [if_pos hstat]

/-- Witness for C1 on the concrete stores `dbCredit` (stake of 100 at cap
200 with 150 already earned and one pending 100 reward) and `dbCompleted`
(a completed stake). -/
theorem c1_witness :
    findStake dbCredit 1 = some ⟨1, 1, .spark, 4, 100, 3/1000, 200, 150, .active⟩ ∧
      ((150:ℚ) ≤ 100 * (200 / 100)) ∧
      (∃ stake2, findStake (creditPendingRewards dbCredit 1 8640000000000).1 1 = some stake2 ∧
        stake2.amount = 100 ∧ stake2.max_reward_limit = 200 ∧
        stake2.total_rewards_earned ≤ stake2.amount * (stake2.max_reward_limit / 100) ∧
        (0 < (creditPendingRewards dbCredit 1 8640000000000).2.totalAmount →
          stake2.amount * (stake2.max_reward_limit / 100) ≤ stake2.total_rewards_earned →
          stake2.status = StakeStatus.completed)) ∧
      (calculateDailyReward dbCompleted 1 70).1 = none :=
  ⟨rfl, by norm_num,
    c1_cap_invariant.1 dbCredit 1 8640000000000 ⟨1, 1, .spark, 4, 100, 3/1000, 200, 150, .active⟩
      rfl (by norm_num),
    c1_cap_invariant.2 dbCompleted 1 70 ⟨1, 1, .spark, 4, 100, 3/1000, 200, 200, .completed⟩
      rfl (by decide)⟩

end IxFlix
